import Mathlib

/-!
Shallow embedding of the scoring engine and quota allocator of the
pmis-proto internship matching system (src/src/models.py and
src/src/matcher.py), together with theorems settling the spec claims.

Modelling conventions:
* Python floats are modelled as exact rationals (ℚ); decimal literals such
  as `0.3` denote the exact rational 3/10.
* Python ints are modelled as ℤ.
* Python sets of strings are modelled as `Finset String`; Python dicts
  (built by comprehension, later keys overwriting earlier ones) are
  modelled as `String → Option _` lookup functions built from the list.
* The TF-IDF/cosine similarity computed by sklearn is numeric machinery
  outside the decidable fragment; it is modelled as an abstract similarity
  oracle `SimFn : String → String → Option ℚ`, where `none` models the
  `except Exception` path of the source (vectorization failure) and
  `some q` models a successfully computed cosine similarity.  The only
  fact used about it is the Cauchy–Schwarz bound `q ≤ 1` of a cosine,
  stated as an explicit hypothesis where needed.
* Python truncating `int()` conversion is `pyTruncInt`; Python list
  slicing `l[:n]` / `l[n:]` with a possibly negative `n` is
  `pyTake` / `pyDrop`.
* Python's stable `sorted(..., key=k, reverse=True)` is `sortKeyDesc`, a
  left-fold insertion sort that is stable and sorts descending by key.
-/

namespace Pmis

/-- Social categories for affirmative action (models.py `SocialCategory`). -/
inductive SocialCategory where
  | GENERAL | OBC | SC | ST | EWS
  deriving DecidableEq, Repr

/-- District classification for affirmative action (models.py `DistrictType`). -/
inductive DistrictType where
  | RURAL | ASPIRATIONAL | URBAN
  deriving DecidableEq, Repr

/-- Industry sectors (models.py `Sector`). -/
inductive Sector where
  | TECHNOLOGY | FINANCE | HEALTHCARE | EDUCATION
  | MANUFACTURING | AGRICULTURE | GOVERNMENT | NGO
  deriving DecidableEq, Repr

/-- The `.value` string of a `Sector` enum member. -/
def Sector.value : Sector → String
  | .TECHNOLOGY => "technology"
  | .FINANCE => "finance"
  | .HEALTHCARE => "healthcare"
  | .EDUCATION => "education"
  | .MANUFACTURING => "manufacturing"
  | .AGRICULTURE => "agriculture"
  | .GOVERNMENT => "government"
  | .NGO => "ngo"

/-- A candidate for internship (models.py `Candidate`). -/
structure Candidate where
  id : String
  name : String
  skills : List String
  qualifications : List String
  location : String
  preferred_locations : List String
  sector_interests : List Sector
  social_category : SocialCategory
  district_type : DistrictType
  past_internships : List String
  cgpa : ℚ
  experience_months : ℤ
  languages : List String
  deriving DecidableEq, Repr

/-- An internship opportunity (models.py `Internship`).  `stipend` is
`Optional[float]`. -/
structure Internship where
  id : String
  title : String
  company : String
  sector : Sector
  required_skills : List String
  preferred_qualifications : List String
  location : String
  remote_allowed : Bool
  duration_months : ℤ
  stipend : Option ℚ
  capacity : ℤ
  filled_positions : ℤ
  min_cgpa : ℚ
  min_experience_months : ℤ
  preferred_social_categories : List SocialCategory
  rural_quota_percentage : ℚ
  deriving DecidableEq, Repr

/-- A candidate-internship match with component scores (models.py `Match`). -/
structure Match where
  candidate_id : String
  internship_id : String
  match_score : ℚ
  skill_match_score : ℚ
  location_preference_score : ℚ
  sector_interest_score : ℚ
  affirmative_action_boost : ℚ
  eligibility_score : ℚ
  deriving DecidableEq, Repr

/-- models.py `Match.total_score`: the weighted total score. -/
def Match.total_score (m : Match) : ℚ :=
  m.skill_match_score * 0.3 +
  m.location_preference_score * 0.2 +
  m.sector_interest_score * 0.2 +
  m.eligibility_score * 0.2 +
  m.affirmative_action_boost * 0.1

/-- Abstract similarity oracle standing for the TF-IDF/cosine similarity of
sklearn; `none` models the exception path taken on vectorization failure. -/
abbrev SimFn := String → String → Option ℚ

/-- Python `s.lower()`: lower-case every character.  (Structurally
recursive equivalent of `String.toLower`.) -/
def strLower (s : String) : String :=
  ⟨s.data.map Char.toLower⟩

/-- Python `' '.join(l)`.  (Structurally recursive equivalent of
`String.intercalate " "`.) -/
def joinSpace : List String → String
  | [] => ""
  | [s] => s
  | s :: rest => s ++ " " ++ joinSpace rest

/-- Python `' '.join(l).lower()`. -/
def joinLower (l : List String) : String :=
  strLower (joinSpace l)

/-- Python `set(x.lower() for x in l)`. -/
def setLower (l : List String) : Finset String :=
  (l.map strLower).toFinset

/-- matcher.py `_calculate_skill_match`: cosine similarity of the two skill
texts when the oracle yields one (clamped below at 0), otherwise the
set-overlap fallback of the `except` branch. -/
def calculate_skill_match (sim : SimFn) (candidate : Candidate)
    (internship : Internship) : ℚ :=
  let candidate_skills_text := joinLower candidate.skills
  let required_skills_text := joinLower internship.required_skills
  if candidate_skills_text = "" ∨ required_skills_text = "" then 0
  else
    match sim candidate_skills_text required_skills_text with
    | some similarity => max 0 similarity
    | none =>
      let candidate_skills_set := setLower candidate.skills
      let required_skills_set := setLower internship.required_skills
      if required_skills_set = ∅ then 1
      else
        ((candidate_skills_set ∩ required_skills_set).card : ℚ) /
          (required_skills_set.card : ℚ)

/-- matcher.py `_calculate_qualification_match`: 1.0 when the internship
lists no preferred qualifications, 0.0 when the candidate lists none,
otherwise similarity with the same overlap fallback. -/
def calculate_qualification_match (qsim : SimFn) (candidate : Candidate)
    (internship : Internship) : ℚ :=
  let candidate_quals_text := joinLower candidate.qualifications
  let preferred_quals_text := joinLower internship.preferred_qualifications
  if preferred_quals_text = "" then 1
  else if candidate_quals_text = "" then 0
  else
    match qsim candidate_quals_text preferred_quals_text with
    | some similarity => max 0 similarity
    | none =>
      let candidate_quals_set := setLower candidate.qualifications
      let preferred_quals_set := setLower internship.preferred_qualifications
      if preferred_quals_set = ∅ then 1
      else
        ((candidate_quals_set ∩ preferred_quals_set).card : ℚ) /
          (preferred_quals_set.card : ℚ)

/-- Python substring test `a in b` on strings. -/
def pySubstr (a b : String) : Bool :=
  decide (a.data <:+: b.data)

/-- matcher.py `_calculate_location_preference_score`: the ordered cascade
remote → preferred-location match → current-location match → substring
relation → 0.2 floor. -/
def calculate_location_preference_score (candidate : Candidate)
    (internship : Internship) : ℚ :=
  if internship.remote_allowed then 1
  else
    let preferred_locations_lower := candidate.preferred_locations.map strLower
    let internship_location_lower := strLower internship.location
    if internship_location_lower ∈ preferred_locations_lower then 1
    else if strLower candidate.location = internship_location_lower then 0.8
    else if preferred_locations_lower.any (fun pref_loc =>
        pySubstr pref_loc internship_location_lower ||
        pySubstr internship_location_lower pref_loc) then 0.6
    else 0.2

/-- matcher.py `_calculate_sector_interest_score`. -/
def calculate_sector_interest_score (candidate : Candidate)
    (internship : Internship) : ℚ :=
  let candidate_sectors := candidate.sector_interests.map Sector.value
  if internship.sector.value ∈ candidate_sectors then 1 else 0.3

/-- matcher.py `_calculate_eligibility_score`: multiplicative penalties for
CGPA and experience below the minimum. -/
def calculate_eligibility_score (candidate : Candidate)
    (internship : Internship) : ℚ :=
  let eligibility_score : ℚ := 1
  let eligibility_score :=
    if candidate.cgpa < internship.min_cgpa then eligibility_score * 0.2
    else eligibility_score
  let eligibility_score :=
    if candidate.experience_months < internship.min_experience_months then
      eligibility_score * 0.5
    else eligibility_score
  eligibility_score

/-- matcher.py `_calculate_affirmative_action_boost`: additive boosts capped
at 1.0. -/
def calculate_affirmative_action_boost (candidate : Candidate)
    (internship : Internship) : ℚ :=
  let boost : ℚ := 0
  let boost :=
    if candidate.district_type = DistrictType.RURAL ∨
       candidate.district_type = DistrictType.ASPIRATIONAL then boost + 0.3
    else boost
  let boost :=
    if candidate.social_category ∈ internship.preferred_social_categories then
      boost + 0.2
    else boost
  let boost :=
    if candidate.past_internships.length = 0 then boost + 0.2
    else if candidate.past_internships.length ≤ 1 then boost + 0.1
    else boost
  min boost 1

/-- matcher.py `_check_capacity_constraint`. -/
def check_capacity_constraint (internship : Internship) : Bool :=
  internship.filled_positions < internship.capacity

/-- The Match object built for one candidate/internship pair in
`match_candidates` (matcher.py lines 218-235).  The qualification score is
computed by the source but not stored anywhere in the Match; the unused
binding mirrors that. -/
def buildMatch (sim qsim : SimFn) (candidate : Candidate)
    (internship : Internship) : Match :=
  let skill_score := calculate_skill_match sim candidate internship
  let _qualification_score := calculate_qualification_match qsim candidate internship
  let location_score := calculate_location_preference_score candidate internship
  let sector_score := calculate_sector_interest_score candidate internship
  let eligibility_score := calculate_eligibility_score candidate internship
  let affirmative_boost := calculate_affirmative_action_boost candidate internship
  { candidate_id := candidate.id
    internship_id := internship.id
    match_score := 0
    skill_match_score := skill_score
    location_preference_score := location_score
    sector_interest_score := sector_score
    affirmative_action_boost := affirmative_boost
    eligibility_score := eligibility_score }

/-- Python truncating `int()` conversion of a float: toward zero.
`sign(num) * (|num| / den)` with natural division. -/
def pyTruncInt (q : ℚ) : ℤ :=
  q.num.sign * (q.num.natAbs / q.den : ℕ)

/-- Python list slice `l[:n]` for an arbitrary integer `n`
(a negative `n` keeps all but the last `|n|` elements). -/
def pyTake (n : ℤ) (l : List α) : List α :=
  if 0 ≤ n then l.take n.toNat else l.take (l.length - (-n).toNat)

/-- Python list slice `l[n:]` for an arbitrary integer `n`
(a negative `n` keeps the last `|n|` elements). -/
def pyDrop (n : ℤ) (l : List α) : List α :=
  if 0 ≤ n then l.drop n.toNat else l.drop (l.length - (-n).toNat)

/-- One step of a stable descending insertion sort by key: the new element
goes after every element whose key is greater than or equal to its own. -/
def insertKeyDesc (key : α → ℚ) (a : α) : List α → List α
  | [] => [a]
  | b :: bs => if key b < key a then a :: b :: bs else b :: insertKeyDesc key a bs

/-- Python's stable `sorted(l, key=key, reverse=True)` (and the equivalent
in-place `l.sort(key=key, reverse=True)`): descending by key, elements with
equal keys keeping their original relative order. -/
def sortKeyDesc (key : α → ℚ) (l : List α) : List α :=
  l.foldl (fun acc a => insertKeyDesc key a acc) []

/-- A Python dict built by comprehension over a list keyed by `key`
(later entries overwrite earlier ones), as a lookup function. -/
def dictLookup (key : α → String) (l : List α) (s : String) : Option α :=
  l.reverse.find? (fun a => key a = s)

/-- matcher.py lines 142-147: group matches by internship id, preserving
the insertion order of keys (Python dict) and of each group's matches. -/
def groupByInternship (matchList : List Match) : List (String × List Match) :=
  matchList.foldl (fun acc m =>
    if acc.any (fun p => p.1 = m.internship_id) then
      acc.map (fun p =>
        if p.1 = m.internship_id then (p.1, p.2 ++ [m]) else p)
    else acc ++ [(m.internship_id, [m])]) []

/-- `capacity − filled_positions` of an internship (matcher.py line 153). -/
def availableOf (internship : Internship) : ℤ :=
  internship.capacity - internship.filled_positions

/-- matcher.py line 159: `int(available_positions * rural_quota_percentage / 100)`. -/
def ruralTargetOf (internship : Internship) : ℤ :=
  pyTruncInt ((availableOf internship : ℚ) * internship.rural_quota_percentage / 100)

/-- matcher.py lines 169-174: whether a match's candidate is rural-eligible.
The source looks the candidate up in the candidates dict (which, coming from
`match_candidates`, always succeeds); a failed lookup would be a Python
`KeyError` and is modelled as `false`. -/
def isRuralEligible (clookup : String → Option Candidate) (m : Match) : Bool :=
  match clookup m.candidate_id with
  | some candidate =>
      candidate.district_type = DistrictType.RURAL ∨
      candidate.district_type = DistrictType.ASPIRATIONAL
  | none => false

/-- matcher.py lines 162-174: this internship's matches sorted descending by
total score, restricted to the rural-eligible ones (order preserved). -/
def sortedRural (clookup : String → Option Candidate) (ms : List Match) :
    List Match :=
  (sortKeyDesc Match.total_score ms).filter (isRuralEligible clookup)

/-- matcher.py lines 162-174: this internship's matches sorted descending by
total score, restricted to the non-rural ones (order preserved). -/
def sortedNonRural (clookup : String → Option Candidate) (ms : List Match) :
    List Match :=
  (sortKeyDesc Match.total_score ms).filter (fun m => !isRuralEligible clookup m)

/-- matcher.py line 180: `rural_matches[:rural_positions]`, the winners
confirmed in the rural-quota phase. -/
def ruralPhasePick (clookup : String → Option Candidate)
    (internship : Internship) (ms : List Match) : List Match :=
  pyTake (ruralTargetOf internship) (sortedRural clookup ms)

/-- matcher.py lines 183-188: the winners taken from the remaining pool
(leftover rural matches plus all non-rural matches, re-sorted descending by
total score), filling `available − len(selected)` slots when that is
positive. -/
def generalPhasePick (clookup : String → Option Candidate)
    (internship : Internship) (ms : List Match) : List Match :=
  let selected_matches := ruralPhasePick clookup internship ms
  let remaining_positions := availableOf internship - selected_matches.length
  if 0 < remaining_positions then
    let remaining_candidates :=
      sortKeyDesc Match.total_score
        (pyDrop (ruralTargetOf internship) (sortedRural clookup ms) ++
          sortedNonRural clookup ms)
    pyTake remaining_positions remaining_candidates
  else []

/-- matcher.py lines 158-190: the winners selected for one internship
(rural-quota phase followed by the general phase). -/
def selectForInternship (clookup : String → Option Candidate)
    (internship : Internship) (ms : List Match) : List Match :=
  ruralPhasePick clookup internship ms ++ generalPhasePick clookup internship ms

/-- matcher.py lines 151-190: the body of the per-internship loop of
`_apply_rural_quota`.  A failed internship lookup would be a Python
`KeyError`; it cannot arise from `match_candidates` and is modelled as an
empty contribution. -/
def allocForGroup (ilookup : String → Option Internship)
    (clookup : String → Option Candidate) (g : String × List Match) :
    List Match :=
  match ilookup g.1 with
  | none => []
  | some internship =>
      if availableOf internship ≤ 0 then []
      else selectForInternship clookup internship g.2

/-- matcher.py `_apply_rural_quota`: group matches by internship and select
winners per internship under capacity and rural quota. -/
def apply_rural_quota (matchList : List Match)
    (ilookup : String → Option Internship)
    (clookup : String → Option Candidate) : List Match :=
  (groupByInternship matchList).flatMap (allocForGroup ilookup clookup)

/-- matcher.py `match_candidates`: score every candidate against every
internship with available capacity, keep pairs with total score above 0.3,
sort descending by total score, and apply the rural quota allocator. -/
def match_candidates (sim qsim : SimFn) (candidates : List Candidate)
    (internships : List Internship) : List Match :=
  let candidates_dict := dictLookup Candidate.id candidates
  let internships_dict := dictLookup Internship.id internships
  let available_internships := internships.filter check_capacity_constraint
  let matchList := candidates.flatMap (fun candidate =>
    available_internships.filterMap (fun internship =>
      let m := buildMatch sim qsim candidate internship
      if m.total_score > 0.3 then some m else none))
  let sorted := sortKeyDesc Match.total_score matchList
  apply_rural_quota sorted internships_dict candidates_dict

/-- matcher.py line 160: `general_positions = available_positions - rural_positions`
(computed by the source but not used by the selection steps that follow). -/
def generalTargetOf (internship : Internship) : ℤ :=
  availableOf internship - ruralTargetOf internship

/-- The number of winners whose candidate has district-type RURAL or
ASPIRATIONAL. -/
def ruralWinnerCount (clookup : String → Option Candidate)
    (winners : List Match) : ℕ :=
  (winners.filter (isRuralEligible clookup)).length

/-- Modelled from the spec: the location-preference cascade exactly as the
spec words it — remote-allowed wins outright; otherwise case-insensitive
equality with a preferred location, then with the current location, then a
case-insensitive substring relation in either direction with any preferred
location, else the 0.2 floor. -/
def location_spec (candidate : Candidate) (internship : Internship) : ℚ :=
  if internship.remote_allowed then 1
  else if ∃ l ∈ candidate.preferred_locations,
      strLower l = strLower internship.location then 1
  else if strLower candidate.location = strLower internship.location then 0.8
  else if ∃ l ∈ candidate.preferred_locations,
      (strLower l).data <:+: (strLower internship.location).data ∨
      (strLower internship.location).data <:+: (strLower l).data then 0.6
  else 0.2

/-- The mutable records a matching run can see: the candidate and internship
objects handed to `match_candidates`. -/
structure EngineState where
  candidates : List Candidate
  internships : List Internship

/-- State-passing translation of matcher.py `match_candidates` over an
explicit record store.  Every statement of the source (lines 205-247 and the
allocator it calls, lines 139-192) only reads candidate and internship
fields — there is no attribute assignment anywhere in the matcher; in
particular `filled_positions` is read at lines 137 and 153 but never
written, and constructed `Match` objects are never modified after line 235.
The translation therefore threads the store through unchanged and returns
it as received. -/
def match_candidates_state (sim qsim : SimFn) (st : EngineState) :
    List Match × EngineState :=
  let candidates := st.candidates
  let internships := st.internships
  let candidates_dict := dictLookup Candidate.id candidates
  let internships_dict := dictLookup Internship.id internships
  let available_internships := internships.filter check_capacity_constraint
  let matchList := candidates.flatMap (fun candidate =>
    available_internships.filterMap (fun internship =>
      let m := buildMatch sim qsim candidate internship
      if m.total_score > 0.3 then some m else none))
  let sorted := sortKeyDesc Match.total_score matchList
  (apply_rural_quota sorted internships_dict candidates_dict, st)

/-! ### Concrete data used by counterexamples and witnesses -/

/-- Similarity oracle that always fails vectorization (always the `except`
fallback path). -/
def simNone : SimFn := fun _ _ => none

/-- A rural-district candidate. -/
def ruralCand1 : Candidate :=
  { id := "r1", name := "Rural One", skills := [], qualifications := []
    location := "pune", preferred_locations := []
    sector_interests := [Sector.TECHNOLOGY]
    social_category := SocialCategory.SC
    district_type := DistrictType.RURAL
    past_internships := [], cgpa := 8, experience_months := 0
    languages := [] }

/-- A second rural-district candidate. -/
def ruralCand2 : Candidate :=
  { ruralCand1 with id := "r2", name := "Rural Two" }

/-- An urban-district candidate. -/
def urbanCand1 : Candidate :=
  { ruralCand1 with
    id := "u1"
    name := "Urban One"
    district_type := DistrictType.URBAN }

/-- A second urban-district candidate. -/
def urbanCand2 : Candidate :=
  { urbanCand1 with id := "u2", name := "Urban Two" }

/-- A third urban-district candidate. -/
def urbanCand3 : Candidate :=
  { urbanCand1 with id := "u3", name := "Urban Three" }

/-- An internship with 2 available slots and a 50% rural quota
(rural target `int(2 * 50 / 100) = 1`). -/
def quotaInt2 : Internship :=
  { id := "q2", title := "Intern", company := "Acme"
    sector := Sector.TECHNOLOGY
    required_skills := [], preferred_qualifications := []
    location := "pune", remote_allowed := true
    duration_months := 3, stipend := none
    capacity := 2, filled_positions := 0
    min_cgpa := 0, min_experience_months := 0
    preferred_social_categories := [SocialCategory.SC]
    rural_quota_percentage := 50 }

/-- An internship with 4 available slots and a 50% rural quota
(rural target 2, general target 2). -/
def quotaInt4 : Internship :=
  { quotaInt2 with id := "q4", capacity := 4 }

/-! ### Helper lemmas about the list machinery -/

theorem mem_insertKeyDesc {key : α → ℚ} {x a : α} {l : List α} :
    a ∈ insertKeyDesc key x l ↔ a = x ∨ a ∈ l := by
  induction l with
  | nil => simp [insertKeyDesc]
  | cons b bs ih =>
    unfold insertKeyDesc
    split
    · simp
    · simp [ih]
      tauto

theorem mem_foldl_insertKeyDesc {key : α → ℚ} :
    ∀ (l acc : List α) (a : α),
      a ∈ l.foldl (fun acc x => insertKeyDesc key x acc) acc ↔ a ∈ acc ∨ a ∈ l := by
  intro l
  induction l with
  | nil => simp
  | cons x xs ih =>
    intro acc a
    rw [List.foldl_cons, ih, mem_insertKeyDesc]
    simp
    tauto

theorem mem_sortKeyDesc {key : α → ℚ} {l : List α} {a : α} :
    a ∈ sortKeyDesc key l ↔ a ∈ l := by
  unfold sortKeyDesc
  rw [mem_foldl_insertKeyDesc]
  simp

theorem pyTake_subset (n : ℤ) (l : List α) : pyTake n l ⊆ l := by
  unfold pyTake
  split <;> exact List.take_subset ..

theorem pyDrop_subset (n : ℤ) (l : List α) : pyDrop n l ⊆ l := by
  unfold pyDrop
  split <;> exact List.drop_subset ..

theorem length_pyTake_le {n : ℤ} (l : List α) (h : 0 ≤ n) :
    (pyTake n l).length ≤ n.toNat := by
  simp [pyTake, if_pos h]

theorem length_pyTake_eq {n : ℤ} (l : List α) (h : 0 ≤ n) :
    (pyTake n l).length = min n.toNat l.length := by
  simp [pyTake, if_pos h]

/-- The fold step of `groupByInternship` preserves "every match stored in
a group satisfies `P`". -/
theorem groupStep_inv (P : Match → Prop) (acc : List (String × List Match))
    (x : Match) (hacc : ∀ p ∈ acc, ∀ m ∈ p.2, P m) (hx : P x) :
    ∀ p ∈ (if acc.any (fun p => p.1 = x.internship_id) then
        acc.map (fun p =>
          if p.1 = x.internship_id then (p.1, p.2 ++ [x]) else p)
      else acc ++ [(x.internship_id, [x])]), ∀ m ∈ p.2, P m := by
  intro q hq mm hmm
  split at hq
  · obtain ⟨r, hr, hrq⟩ := List.mem_map.mp hq
    by_cases hcase : r.1 = x.internship_id
    · rw [if_pos hcase] at hrq
      subst hrq
      simp at hmm
      rcases hmm with hmm | hmm
      · exact hacc r hr mm hmm
      · subst hmm; exact hx
    · rw [if_neg hcase] at hrq
      subst hrq
      exact hacc r hr mm hmm
  · rcases List.mem_append.mp hq with hq | hq
    · exact hacc q hq mm hmm
    · simp at hq
      subst hq
      simp at hmm
      subst hmm
      exact hx

theorem mem_groupByInternship {ml : List Match} :
    ∀ p ∈ groupByInternship ml, ∀ m ∈ p.2, m ∈ ml := by
  suffices h : ∀ (l : List Match) (acc : List (String × List Match)),
      (∀ p ∈ acc, ∀ m ∈ p.2, m ∈ ml) → (∀ m ∈ l, m ∈ ml) →
      ∀ p ∈ l.foldl (fun acc m =>
        if acc.any (fun p => p.1 = m.internship_id) then
          acc.map (fun p =>
            if p.1 = m.internship_id then (p.1, p.2 ++ [m]) else p)
        else acc ++ [(m.internship_id, [m])]) acc, ∀ m ∈ p.2, m ∈ ml by
    intro p hp m hm
    exact h ml [] (by simp) (fun _ h => h) p hp m hm
  intro l
  induction l with
  | nil => intro acc hacc _ p hp m hm; exact hacc p hp m hm
  | cons x xs ih =>
    intro acc hacc hl p hp m hm
    exact ih _
      (groupStep_inv (· ∈ ml) acc x hacc (hl x (List.mem_cons_self x xs)))
      (fun mm hmm => hl mm (List.mem_cons_of_mem _ hmm)) p hp m hm

theorem mem_sortedRural {clookup : String → Option Candidate} {ms : List Match}
    {m : Match} (h : m ∈ sortedRural clookup ms) : m ∈ ms := by
  unfold sortedRural at h
  exact mem_sortKeyDesc.mp (List.mem_filter.mp h).1

theorem mem_sortedNonRural {clookup : String → Option Candidate} {ms : List Match}
    {m : Match} (h : m ∈ sortedNonRural clookup ms) : m ∈ ms := by
  unfold sortedNonRural at h
  exact mem_sortKeyDesc.mp (List.mem_filter.mp h).1

theorem mem_selectForInternship {clookup : String → Option Candidate}
    {internship : Internship} {ms : List Match} {m : Match}
    (h : m ∈ selectForInternship clookup internship ms) : m ∈ ms := by
  unfold selectForInternship at h
  rcases List.mem_append.mp h with h | h
  · exact mem_sortedRural (pyTake_subset _ _ h)
  · simp only [generalPhasePick] at h
    split at h
    · have h2 := pyTake_subset _ _ h
      rcases List.mem_append.mp (mem_sortKeyDesc.mp h2) with h3 | h3
      · exact mem_sortedRural (pyDrop_subset _ _ h3)
      · exact mem_sortedNonRural h3
    · simp at h

theorem mem_apply_rural_quota {ml : List Match}
    {ilookup : String → Option Internship} {clookup : String → Option Candidate}
    {m : Match} (h : m ∈ apply_rural_quota ml ilookup clookup) : m ∈ ml := by
  unfold apply_rural_quota at h
  obtain ⟨g, hg, hm⟩ := List.mem_flatMap.mp h
  unfold allocForGroup at hm
  split at hm
  · simp at hm
  · split at hm
    · simp at hm
    · exact mem_groupByInternship g hg m (mem_selectForInternship hm)

/-! ### Arithmetic lemmas about the quota targets -/

theorem pyTruncInt_nonneg {q : ℚ} (h : 0 ≤ q) : 0 ≤ pyTruncInt q := by
  unfold pyTruncInt
  have hnum : 0 ≤ q.num := Rat.num_nonneg.mpr h
  exact mul_nonneg (Int.sign_nonneg.mpr hnum) (Int.natCast_nonneg _)

theorem pyTruncInt_le {q : ℚ} (h : 0 ≤ q) : (pyTruncInt q : ℚ) ≤ q := by
  unfold pyTruncInt
  have hnum : 0 ≤ q.num := Rat.num_nonneg.mpr h
  rcases lt_or_eq_of_le hnum with hpos | hzero
  · rw [Int.sign_eq_one_iff_pos.mpr hpos, one_mul]
    calc ((q.num.natAbs / q.den : ℕ) : ℚ)
        ≤ (q.num.natAbs : ℚ) / (q.den : ℚ) := Nat.cast_div_le
      _ = (q.num : ℚ) / (q.den : ℚ) := by
          rw [Int.cast_natAbs, abs_of_nonneg (by exact_mod_cast hnum)]
      _ = q := Rat.num_div_den q
  · rw [← hzero]
    simpa using h

theorem ruralTargetOf_nonneg {i : Internship} (h0 : 0 ≤ i.rural_quota_percentage)
    (hav : 0 ≤ availableOf i) : 0 ≤ ruralTargetOf i := by
  unfold ruralTargetOf
  apply pyTruncInt_nonneg
  apply div_nonneg _ (by norm_num)
  exact mul_nonneg (by exact_mod_cast hav) h0

theorem ruralTargetOf_le_available {i : Internship}
    (h0 : 0 ≤ i.rural_quota_percentage) (h100 : i.rural_quota_percentage ≤ 100)
    (hav : 0 ≤ availableOf i) : ruralTargetOf i ≤ availableOf i := by
  unfold ruralTargetOf
  have havq : (0 : ℚ) ≤ (availableOf i : ℚ) := by exact_mod_cast hav
  have hq0 : 0 ≤ (availableOf i : ℚ) * i.rural_quota_percentage / 100 :=
    div_nonneg (mul_nonneg havq h0) (by norm_num)
  have hle : (availableOf i : ℚ) * i.rural_quota_percentage / 100 ≤ (availableOf i : ℚ) := by
    rw [div_le_iff₀ (by norm_num : (0:ℚ) < 100)]
    exact mul_le_mul_of_nonneg_left h100 havq
  have := (pyTruncInt_le hq0).trans hle
  exact_mod_cast this

theorem length_ruralPhasePick_le (clookup : String → Option Candidate)
    (i : Internship) (ms : List Match) (h0 : 0 ≤ ruralTargetOf i) :
    (ruralPhasePick clookup i ms).length ≤ (ruralTargetOf i).toNat :=
  length_pyTake_le _ h0

theorem length_generalPhasePick_le (clookup : String → Option Candidate)
    (i : Internship) (ms : List Match) :
    (generalPhasePick clookup i ms).length ≤
      (availableOf i - (ruralPhasePick clookup i ms).length).toNat := by
  simp only [generalPhasePick]
  split
  · exact length_pyTake_le _ (by omega)
  · simp

/-! ### Bounds on the component scores -/

theorem calculate_skill_match_bounds (sim : SimFn)
    (hsim : ∀ a b q, sim a b = some q → q ≤ 1)
    (c : Candidate) (i : Internship) :
    0 ≤ calculate_skill_match sim c i ∧ calculate_skill_match sim c i ≤ 1 := by
  simp only [calculate_skill_match]
  split
  · norm_num
  · split
    · next q hq =>
      exact ⟨le_max_left 0 q, max_le (by norm_num) (hsim _ _ q hq)⟩
    · split
      · norm_num
      · next hne =>
        have hpos : 0 < ((setLower i.required_skills).card : ℚ) := by
          have : 0 < (setLower i.required_skills).card :=
            Finset.card_pos.mpr (Finset.nonempty_iff_ne_empty.mpr hne)
          exact_mod_cast this
        constructor
        · exact div_nonneg (by positivity) hpos.le
        · rw [div_le_one hpos]
          have := Finset.card_le_card
            (Finset.inter_subset_right :
              setLower c.skills ∩ setLower i.required_skills ⊆
                setLower i.required_skills)
          exact_mod_cast this

theorem calculate_qualification_match_bounds (qsim : SimFn)
    (hqsim : ∀ a b q, qsim a b = some q → q ≤ 1)
    (c : Candidate) (i : Internship) :
    0 ≤ calculate_qualification_match qsim c i ∧
      calculate_qualification_match qsim c i ≤ 1 := by
  simp only [calculate_qualification_match]
  split
  · norm_num
  · split
    · norm_num
    · split
      · next q hq =>
        exact ⟨le_max_left 0 q, max_le (by norm_num) (hqsim _ _ q hq)⟩
      · split
        · norm_num
        · next hne =>
          have hpos : 0 < ((setLower i.preferred_qualifications).card : ℚ) := by
            have : 0 < (setLower i.preferred_qualifications).card :=
              Finset.card_pos.mpr (Finset.nonempty_iff_ne_empty.mpr hne)
            exact_mod_cast this
          constructor
          · exact div_nonneg (by positivity) hpos.le
          · rw [div_le_one hpos]
            have := Finset.card_le_card
              (Finset.inter_subset_right :
                setLower c.qualifications ∩ setLower i.preferred_qualifications ⊆
                  setLower i.preferred_qualifications)
            exact_mod_cast this

theorem calculate_location_preference_score_bounds (c : Candidate)
    (i : Internship) :
    0 ≤ calculate_location_preference_score c i ∧
      calculate_location_preference_score c i ≤ 1 := by
  simp only [calculate_location_preference_score]
  split_ifs <;> norm_num

theorem calculate_sector_interest_score_bounds (c : Candidate)
    (i : Internship) :
    0 ≤ calculate_sector_interest_score c i ∧
      calculate_sector_interest_score c i ≤ 1 := by
  simp only [calculate_sector_interest_score]
  split_ifs <;> norm_num

theorem calculate_eligibility_score_bounds (c : Candidate) (i : Internship) :
    0 ≤ calculate_eligibility_score c i ∧ calculate_eligibility_score c i ≤ 1 := by
  simp only [calculate_eligibility_score]
  split_ifs <;> norm_num

theorem calculate_affirmative_action_boost_bounds (c : Candidate)
    (i : Internship) :
    0 ≤ calculate_affirmative_action_boost c i ∧
      calculate_affirmative_action_boost c i ≤ 1 := by
  simp only [calculate_affirmative_action_boost]
  refine ⟨le_min ?_ (by norm_num), min_le_right _ _⟩
  split_ifs <;> norm_num

/-- Any match in the output of `match_candidates` was built by `buildMatch`
from one of the candidates and one of the capacity-checked internships, and
passed the 0.3 threshold. -/
theorem mem_match_candidates {sim qsim : SimFn} {cs : List Candidate}
    {is : List Internship} {m : Match} (h : m ∈ match_candidates sim qsim cs is) :
    ∃ c ∈ cs, ∃ i ∈ is, check_capacity_constraint i = true ∧
      m = buildMatch sim qsim c i ∧ m.total_score > 0.3 := by
  unfold match_candidates at h
  have h1 := mem_sortKeyDesc.mp (mem_apply_rural_quota h)
  obtain ⟨c, hc, h2⟩ := List.mem_flatMap.mp h1
  obtain ⟨i, hi, h3⟩ := List.mem_filterMap.mp h2
  obtain ⟨hi1, hi2⟩ := List.mem_filter.mp hi
  refine ⟨c, hc, i, hi1, hi2, ?_⟩
  by_cases hgt : (buildMatch sim qsim c i).total_score > 0.3
  · rw [if_pos hgt] at h3
    obtain rfl := Option.some_injective _ h3
    exact ⟨rfl, hgt⟩
  · rw [if_neg hgt] at h3
    exact absurd h3 (Option.noConfusion)

/-! ### Claim theorems

The arithmetic of `Rat` in Batteries is marked irreducible for elaboration;
concrete evaluation by `decide` in the witnesses and counterexamples below
needs it transparent. -/

attribute [local semireducible] Rat.add Rat.mul Rat.inv Rat.sub Rat.ofScientific

/-- C1 (counterexample): with 2 available slots and a 50% rural quota
(rural_target = 1), two rural candidates and no others, the allocator run
by `match_candidates` selects 2 rural-eligible winners — more than
rural_target.  The leftover rural-eligible match wins a general slot, so
the claim's bound fails as stated. -/
theorem rural_winners_exceed_rural_target_cex :
    ruralTargetOf quotaInt2 = 1 ∧
    ruralWinnerCount (dictLookup Candidate.id [ruralCand1, ruralCand2])
      (match_candidates simNone simNone [ruralCand1, ruralCand2] [quotaInt2]) = 2 := by
  decide

/-- C1 (amended): the winners selected in the rural-reserved phase
(`rural_matches[:rural_positions]`) are all rural-eligible and never more
than rural_target; the total number of rural-eligible winners is not
bounded by rural_target because leftover rural-eligible matches can also
win general slots. -/
theorem rural_phase_bounded_by_rural_target
    (clookup : String → Option Candidate) (i : Internship) (ms : List Match)
    (h0 : 0 ≤ ruralTargetOf i) :
    (ruralPhasePick clookup i ms).length ≤ (ruralTargetOf i).toNat ∧
      ∀ m ∈ ruralPhasePick clookup i ms, isRuralEligible clookup m = true := by
  refine ⟨length_ruralPhasePick_le clookup i ms h0, ?_⟩
  intro m hm
  have hmem := pyTake_subset _ _ hm
  exact (List.mem_filter.mp hmem).2

/-- C1 (witness): the amended bound at the concrete counterexample data. -/
theorem rural_phase_bounded_by_rural_target_witness :
    (ruralPhasePick (dictLookup Candidate.id [ruralCand1, ruralCand2]) quotaInt2
        [buildMatch simNone simNone ruralCand1 quotaInt2,
         buildMatch simNone simNone ruralCand2 quotaInt2]).length ≤
      (ruralTargetOf quotaInt2).toNat ∧
    ∀ m ∈ ruralPhasePick (dictLookup Candidate.id [ruralCand1, ruralCand2]) quotaInt2
        [buildMatch simNone simNone ruralCand1 quotaInt2,
         buildMatch simNone simNone ruralCand2 quotaInt2],
      isRuralEligible (dictLookup Candidate.id [ruralCand1, ruralCand2]) m = true :=
  rural_phase_bounded_by_rural_target _ _ _ (by decide)

/-- C2 (counterexample): with 4 available slots and a 50% rural quota
(rural_target = 2, general_target = 2) but only one rural-eligible match
and three non-rural matches, the general phase takes 3 winners from the
remaining pool — more than general_target = available − rural_target. -/
theorem general_phase_exceeds_general_target_cex :
    generalTargetOf quotaInt4 = 2 ∧
    (generalPhasePick
        (dictLookup Candidate.id [ruralCand1, urbanCand1, urbanCand2, urbanCand3])
        quotaInt4
        [buildMatch simNone simNone ruralCand1 quotaInt4,
         buildMatch simNone simNone urbanCand1 quotaInt4,
         buildMatch simNone simNone urbanCand2 quotaInt4,
         buildMatch simNone simNone urbanCand3 quotaInt4]).length = 3 := by
  decide

/-- C2 (amended): the general phase takes the top
`available − len(confirmed rural winners)` entries of the remaining pool,
so its winner count is bounded by `available − rural_target` exactly when
at least rural_target rural-eligible matches exist; with fewer, the unused
rural slots enlarge the general take. -/
theorem general_phase_bounded_when_quota_subscribed
    (clookup : String → Option Candidate) (i : Internship) (ms : List Match)
    (h0 : 0 ≤ ruralTargetOf i)
    (hsub : ruralTargetOf i ≤ ((sortedRural clookup ms).length : ℤ)) :
    (generalPhasePick clookup i ms).length ≤
      (availableOf i - ruralTargetOf i).toNat := by
  have hlen : (ruralPhasePick clookup i ms).length = (ruralTargetOf i).toNat := by
    rw [ruralPhasePick, length_pyTake_eq _ h0]
    omega
  have h2 := length_generalPhasePick_le clookup i ms
  rw [hlen] at h2
  omega

/-- C2 (witness): the amended bound at concrete data where the rural quota
is fully subscribed. -/
theorem general_phase_bounded_when_quota_subscribed_witness :
    (generalPhasePick (dictLookup Candidate.id [ruralCand1, ruralCand2]) quotaInt2
        [buildMatch simNone simNone ruralCand1 quotaInt2,
         buildMatch simNone simNone ruralCand2 quotaInt2]).length ≤
      (availableOf quotaInt2 - ruralTargetOf quotaInt2).toNat :=
  general_phase_bounded_when_quota_subscribed _ _ _ (by decide) (by decide)

/-- C3: for every internship processed by the allocator's per-internship
loop (with its quota percentage in the documented 0–100 range), the number
of winners selected for that internship is at most
`available = capacity − filled_positions`. -/
theorem winners_at_most_available
    (ilookup : String → Option Internship) (clookup : String → Option Candidate)
    (gid : String) (ms : List Match) (i : Internship)
    (hi : ilookup gid = some i)
    (h0 : 0 ≤ i.rural_quota_percentage) (h100 : i.rural_quota_percentage ≤ 100) :
    (allocForGroup ilookup clookup (gid, ms)).length ≤ (availableOf i).toNat := by
  unfold allocForGroup
  simp only [hi]
  split
  · simp
  · next hav =>
    have hav' : 0 < availableOf i := by omega
    have ht0 := ruralTargetOf_nonneg h0 hav'.le
    have hta := ruralTargetOf_le_available h0 h100 hav'.le
    have h1 := length_ruralPhasePick_le clookup i ms ht0
    have h2 := length_generalPhasePick_le clookup i ms
    simp only [selectForInternship, List.length_append]
    omega

/-- C3 (witness): the bound at the concrete two-rural-candidate data. -/
theorem winners_at_most_available_witness :
    (allocForGroup (dictLookup Internship.id [quotaInt2])
        (dictLookup Candidate.id [ruralCand1, ruralCand2])
        ("q2", [buildMatch simNone simNone ruralCand1 quotaInt2,
                buildMatch simNone simNone ruralCand2 quotaInt2])).length ≤
      (availableOf quotaInt2).toNat :=
  winners_at_most_available _ _ _ _ quotaInt2 (by decide) (by decide) (by decide)

/-- C4: for every candidate/internship pair, each of the six component
scores and the weighted total lie in [0, 1]; the affirmative-action boost
in particular is capped at 1.  The similarity oracle hypotheses state the
Cauchy–Schwarz bound of the cosine similarity the source computes. -/
theorem scores_in_unit_interval (sim qsim : SimFn)
    (hsim : ∀ a b q, sim a b = some q → q ≤ 1)
    (hqsim : ∀ a b q, qsim a b = some q → q ≤ 1)
    (c : Candidate) (i : Internship) :
    (0 ≤ calculate_skill_match sim c i ∧ calculate_skill_match sim c i ≤ 1) ∧
    (0 ≤ calculate_qualification_match qsim c i ∧
      calculate_qualification_match qsim c i ≤ 1) ∧
    (0 ≤ calculate_location_preference_score c i ∧
      calculate_location_preference_score c i ≤ 1) ∧
    (0 ≤ calculate_sector_interest_score c i ∧
      calculate_sector_interest_score c i ≤ 1) ∧
    (0 ≤ calculate_eligibility_score c i ∧ calculate_eligibility_score c i ≤ 1) ∧
    (0 ≤ calculate_affirmative_action_boost c i ∧
      calculate_affirmative_action_boost c i ≤ 1) ∧
    (0 ≤ (buildMatch sim qsim c i).total_score ∧
      (buildMatch sim qsim c i).total_score ≤ 1) := by
  obtain ⟨s0, s1⟩ := calculate_skill_match_bounds sim hsim c i
  obtain ⟨q0, q1⟩ := calculate_qualification_match_bounds qsim hqsim c i
  obtain ⟨l0, l1⟩ := calculate_location_preference_score_bounds c i
  obtain ⟨t0, t1⟩ := calculate_sector_interest_score_bounds c i
  obtain ⟨e0, e1⟩ := calculate_eligibility_score_bounds c i
  obtain ⟨b0, b1⟩ := calculate_affirmative_action_boost_bounds c i
  refine ⟨⟨s0, s1⟩, ⟨q0, q1⟩, ⟨l0, l1⟩, ⟨t0, t1⟩, ⟨e0, e1⟩, ⟨b0, b1⟩, ?_, ?_⟩
  · simp only [buildMatch, Match.total_score]
    linarith
  · simp only [buildMatch, Match.total_score]
    linarith

/-- C4 (witness): the bounds at a concrete pair, with the always-fallback
similarity oracle. -/
theorem scores_in_unit_interval_witness :
    (0 ≤ calculate_skill_match simNone ruralCand1 quotaInt2 ∧
      calculate_skill_match simNone ruralCand1 quotaInt2 ≤ 1) ∧
    (0 ≤ calculate_qualification_match simNone ruralCand1 quotaInt2 ∧
      calculate_qualification_match simNone ruralCand1 quotaInt2 ≤ 1) ∧
    (0 ≤ calculate_location_preference_score ruralCand1 quotaInt2 ∧
      calculate_location_preference_score ruralCand1 quotaInt2 ≤ 1) ∧
    (0 ≤ calculate_sector_interest_score ruralCand1 quotaInt2 ∧
      calculate_sector_interest_score ruralCand1 quotaInt2 ≤ 1) ∧
    (0 ≤ calculate_eligibility_score ruralCand1 quotaInt2 ∧
      calculate_eligibility_score ruralCand1 quotaInt2 ≤ 1) ∧
    (0 ≤ calculate_affirmative_action_boost ruralCand1 quotaInt2 ∧
      calculate_affirmative_action_boost ruralCand1 quotaInt2 ≤ 1) ∧
    (0 ≤ (buildMatch simNone simNone ruralCand1 quotaInt2).total_score ∧
      (buildMatch simNone simNone ruralCand1 quotaInt2).total_score ≤ 1) :=
  scores_in_unit_interval simNone simNone
    (fun _ _ _ h => nomatch h) (fun _ _ _ h => nomatch h) ruralCand1 quotaInt2

/-- C5: the total score of every Match built by the scoring loop equals
0.3·skill + 0.2·location + 0.2·sector + 0.2·eligibility + 0.1·boost, and
the Match is entirely independent of the qualification-match computation
(so the qualification score contributes nothing to the total). -/
theorem total_score_weighted_formula (sim qsim qsim2 : SimFn)
    (c : Candidate) (i : Internship) :
    (buildMatch sim qsim c i).total_score =
      0.3 * calculate_skill_match sim c i +
      0.2 * calculate_location_preference_score c i +
      0.2 * calculate_sector_interest_score c i +
      0.2 * calculate_eligibility_score c i +
      0.1 * calculate_affirmative_action_boost c i ∧
    buildMatch sim qsim c i = buildMatch sim qsim2 c i := by
  constructor
  · simp only [buildMatch, Match.total_score]
    ring
  · rfl

/-- C6: every Match returned by `match_candidates` (and hence every Match
the quota allocator can select) has total score strictly greater than 0.3;
pairs at or below 0.3 are discarded by the threshold filter before
grouping and allocation. -/
theorem output_total_score_above_threshold (sim qsim : SimFn)
    (cs : List Candidate) (is : List Internship) (m : Match)
    (hm : m ∈ match_candidates sim qsim cs is) : 0.3 < m.total_score := by
  obtain ⟨c, _, i, _, _, _, hgt⟩ := mem_match_candidates hm
  exact hgt

/-- C6 (witness): the threshold bound at a concrete winning match. -/
theorem output_total_score_above_threshold_witness :
    (0.3 : ℚ) < (buildMatch simNone simNone ruralCand1 quotaInt2).total_score :=
  output_total_score_above_threshold simNone simNone [ruralCand1] [quotaInt2]
    (buildMatch simNone simNone ruralCand1 quotaInt2) (by decide)

/-- C7: the location-preference score is exactly the ordered first-match
cascade the spec describes: remote-allowed → 1.0 (regardless of every
location field), preferred-location equality → 1.0, current-location
equality → 0.8, substring relation in either direction → 0.6, else 0.2,
all case-insensitively. -/
theorem location_cascade_matches_spec (c : Candidate) (i : Internship) :
    calculate_location_preference_score c i = location_spec c i := by
  simp only [calculate_location_preference_score, location_spec]
  refine if_congr Iff.rfl rfl
    (if_congr ?_ rfl (if_congr Iff.rfl rfl (if_congr ?_ rfl rfl)))
  · simp only [List.mem_map]
  · simp only [List.any_map, List.any_eq_true, Function.comp, pySubstr,
      Bool.or_eq_true, decide_eq_true_iff]

/-- Mapping every element to the empty list and flattening yields the
empty list. -/
theorem flatMap_const_nil (l : List α) :
    (l.flatMap fun _ => ([] : List β)) = [] := by
  induction l with
  | nil => rfl
  | cons x xs ih => simp [ih]

/-- C8: degenerate inputs are handled without error — an empty candidate
list or an empty internship list yields an empty output, and every Match
that is produced comes from an internship in the input with
`filled_positions < capacity` (a full or over-full internship produces no
Match at all). -/
theorem degenerate_inputs_graceful (sim qsim : SimFn)
    (cs : List Candidate) (is : List Internship) :
    match_candidates sim qsim [] is = [] ∧
    match_candidates sim qsim cs [] = [] ∧
    ∀ m ∈ match_candidates sim qsim cs is,
      ∃ i ∈ is, m.internship_id = i.id ∧ i.filled_positions < i.capacity := by
  refine ⟨rfl, ?_, ?_⟩
  · simp only [match_candidates, List.filter_nil, List.filterMap_nil,
      flatMap_const_nil]
    rfl
  · intro m hm
    obtain ⟨c, _, i, hi, hcheck, heq, _⟩ := mem_match_candidates hm
    refine ⟨i, hi, ?_, ?_⟩
    · rw [heq]
      rfl
    · simpa [check_capacity_constraint] using hcheck

/-- C8 (witness): the degenerate-input behaviour at concrete inputs, and
the capacity fact for a concrete produced Match. -/
theorem degenerate_inputs_graceful_witness :
    match_candidates simNone simNone [] [quotaInt2] = [] ∧
    match_candidates simNone simNone [ruralCand1] [] = [] ∧
    ∃ i ∈ [quotaInt2],
      (buildMatch simNone simNone ruralCand1 quotaInt2).internship_id = i.id ∧
      i.filled_positions < i.capacity := by
  obtain ⟨h1, h2, h3⟩ :=
    degenerate_inputs_graceful simNone simNone [ruralCand1] [quotaInt2]
  exact ⟨h1, h2, h3 _ (by decide)⟩

/-- C9: neither scoring nor allocation mutates its inputs — the
state-passing translation of `match_candidates` (which threads the store
of candidate and internship records through every statement of the source,
none of which writes a field) returns its store unchanged and computes the
same winners as the pure function; in particular `filled_positions` is
read but never written back. -/
theorem run_preserves_store (sim qsim : SimFn) (st : EngineState) :
    (match_candidates_state sim qsim st).2 = st ∧
    (match_candidates_state sim qsim st).1 =
      match_candidates sim qsim st.candidates st.internships :=
  ⟨rfl, rfl⟩

/-- C10: the stored `match_score` field of every Match produced by
`match_candidates` equals 0.0: it is set to 0.0 at construction and never
updated, so the weighted total is available only through `total_score`. -/
theorem match_score_field_zero (sim qsim : SimFn)
    (cs : List Candidate) (is : List Internship) (m : Match)
    (hm : m ∈ match_candidates sim qsim cs is) : m.match_score = 0 := by
  obtain ⟨c, _, i, _, _, heq, _⟩ := mem_match_candidates hm
  rw [heq]
  rfl

/-- C10 (witness): the zero `match_score` field at a concrete produced
Match. -/
theorem match_score_field_zero_witness :
    (buildMatch simNone simNone ruralCand1 quotaInt2).match_score = 0 :=
  match_score_field_zero simNone simNone [ruralCand1] [quotaInt2]
    (buildMatch simNone simNone ruralCand1 quotaInt2) (by decide)

end Pmis
